import Mathlib

/-!
Verification of the runtime interception and decision engine of the
cisco-ai-defense AI Defense Python SDK, as a shallow embedding in Lean 4.

The definitions below are translated from the SDK's source files:
  * aidefense/runtime/agentsec/inspectors/api_llm.py   (LLMInspector)
  * aidefense/runtime/agentsec/inspectors/api_mcp.py   (MCPInspector)
  * aidefense/runtime/agentsec/patchers/bedrock.py     (Bedrock patcher,
    gateway handler and the fake-stream synthesizer)
  * aidefense/runtime/agentsec/patchers/mcp.py         (MCP patcher)
  * aidefense/runtime/http_inspect.py                  (HttpInspectionClient)
  * aidefense/runtime/utils.py                         (base64 helpers)

Python dicts that carry documented JSON schemas are embedded as typed
structures with `Option` fields for keys that may be absent (`none` models a
missing key); Python string truthiness is modelled as comparison with the
empty string.  I/O (HTTP posts, the wrapped provider call) is modelled by
passing the outcome of each external interaction as an explicit argument.
-/

namespace AIDefense

/-- Action of a Decision: the spec's closed enumeration
allow / block / sanitize / monitor_only. -/
inductive DecisionAction where
  | allow
  | block
  | sanitize
  | monitor_only
deriving DecidableEq, Repr

/-- Modelled from the spec: the Decision value type (its module decision.py is
not among the provided source files).  Per spec sections 3 and 4.1 a Decision
is an immutable record of an action, an ordered list of human-readable reason
strings and optional sanitized content; the audit-only raw_response payload is
not modelled. -/
structure Decision where
  action : DecisionAction
  reasons : List String
  sanitizedContent : Option String
deriving DecidableEq, Repr

/-- Constructor Decision.allow: action matches the constructor name.
Modelled from the spec: reasons default to the empty list when a call site
passes none (spec section 4.1, "each taking reasons"). -/
def Decision.allow (reasons : List String) : Decision :=
  ⟨DecisionAction.allow, reasons, none⟩

/-- Constructor Decision.block. -/
def Decision.block (reasons : List String) : Decision :=
  ⟨DecisionAction.block, reasons, none⟩

/-- Constructor Decision.sanitize, additionally carrying sanitized content. -/
def Decision.sanitize (reasons : List String) (sanitizedContent : Option String) : Decision :=
  ⟨DecisionAction.sanitize, reasons, sanitizedContent⟩

/-- Constructor Decision.monitor_only. -/
def Decision.monitorOnly (reasons : List String) : Decision :=
  ⟨DecisionAction.monitor_only, reasons, none⟩

/-- Modelled from the spec: SecurityPolicyError (its module exceptions.py is
not among the provided source files).  Per spec section 7 it is raised with an
attached Decision; the optional second constructor argument is a message. -/
structure SecurityPolicyError where
  decision : Decision
  message : Option String
deriving DecidableEq, Repr

/-- Renders an optional string the way a Python f-string renders
`rule.get("rule_name")`: a missing key interpolates as "None". -/
def pyStr : Option String → String
  | none => "None"
  | some s => s

/-! ### MCP inspection response parsing (api_mcp.py, MCPInspector._parse_mcp_response) -/

/-- One entry of the `rules` list of an MCP inspection API response. -/
structure MCPRule where
  rule_name : Option String
  classification : Option String
deriving DecidableEq, Repr

/-- The result object of an MCP inspection API response (the fields
_parse_mcp_response reads; a missing key is `none`, `rules` defaults to []). -/
structure MCPResult where
  action : Option String
  is_safe : Option Bool
  severity : Option String
  attack_technique : Option String
  explanation : Option String
  rules : List MCPRule
deriving DecidableEq, Repr

/-- A JSON-RPC MCP inspection response: either an envelope with a `result`
member, or a bare object that _parse_mcp_response treats as the result itself
(`response_data.get("result", response_data)`). -/
inductive MCPResponse where
  | wrapped (result : MCPResult)
  | bare (result : MCPResult)
deriving DecidableEq, Repr

/-- The result object _parse_mcp_response extracts from the response. -/
def MCPResponse.extract : MCPResponse → MCPResult
  | .wrapped r => r
  | .bare r => r

/-- Reason contributed by one MCP rule entry: `rule_name: classification` when
the classification is truthy and not NONE_VIOLATION (mirrors the loop in
_parse_mcp_response; `rule.get("rule_name", "Unknown")`). -/
def mcpRuleReason (r : MCPRule) : Option String :=
  match r.classification with
  | none => none
  | some c =>
    if c = "" ∨ c = "NONE_VIOLATION" then none
    else some (r.rule_name.getD "Unknown" ++ ": " ++ c)

/-- MCPInspector._parse_mcp_response on the extracted result object:
action defaults to "Allow", is_safe defaults to true; reasons come from the
triggered rules, with a generic fallback when none triggered but is_safe is
false; the Decision is block iff action = "Block" or is_safe is falsy. -/
def parseMCPResult (r : MCPResult) : Decision :=
  let action := r.action.getD "Allow"
  let isSafe := r.is_safe.getD true
  let base := r.rules.filterMap mcpRuleReason
  let reasons :=
    if base.isEmpty ∧ isSafe = false then
      let explanation := r.explanation.getD ""
      let attack := r.attack_technique.getD ""
      if explanation ≠ "" then [explanation]
      else if attack ≠ "" ∧ attack ≠ "NONE_ATTACK_TECHNIQUE" then
        ["Attack technique: " ++ attack]
      else
        ["Unsafe content detected (severity: " ++ r.severity.getD "UNKNOWN" ++ ")"]
    else base
  if action = "Block" ∨ isSafe = false then Decision.block reasons
  else Decision.allow reasons

/-- MCPInspector._parse_mcp_response on a full JSON-RPC response. -/
def parseMcpResponse (resp : MCPResponse) : Decision :=
  parseMCPResult resp.extract

/-! ### Chat inspection response parsing (api_llm.py, LLMInspector._parse_response) -/

/-- One entry of the `rules` or `processed_rules` list of a chat inspection
API response. -/
structure ChatRule where
  rule_name : Option String
  classification : Option String
deriving DecidableEq, Repr

/-- The chat inspection API response fields LLMInspector._parse_response reads.
`reasons` defaults to [] (`response_data.get("reasons", [])`); for `rules` and
`processed_rules` the presence of the key matters (`"rules" in response_data`),
so they are Options of lists. -/
structure ChatResponseData where
  action : Option String
  reasons : List String
  sanitized_content : Option String
  rules : Option (List ChatRule)
  processed_rules : Option (List ChatRule)
deriving DecidableEq, Repr

/-- Reason contributed by one entry of `rules`: kept when the classification
is truthy and neither NONE_VIOLATION nor NONE_SEVERITY
(`if classification and classification not in ("NONE_VIOLATION", "NONE_SEVERITY")`). -/
def chatRuleReason (r : ChatRule) : Option String :=
  match r.classification with
  | none => none
  | some c =>
    if c = "" ∨ c = "NONE_VIOLATION" ∨ c = "NONE_SEVERITY" then none
    else some (pyStr r.rule_name ++ ": " ++ c)

/-- Reason contributed by one entry of `processed_rules`: kept when the
classification is present and not NONE_VIOLATION
(`if rule.get("classification") not in ("NONE_VIOLATION", None)`); note that
unlike `chatRuleReason` this filter admits NONE_SEVERITY and the empty string. -/
def processedRuleReason (r : ChatRule) : Option String :=
  match r.classification with
  | none => none
  | some c =>
    if c = "NONE_VIOLATION" then none
    else some (pyStr r.rule_name ++ ": " ++ c)

/-- Python str.lower() restricted to ASCII, which covers the action values
the chat inspection API emits (Allow, Block, ...). -/
def asciiLower (s : String) : String :=
  String.mk (s.data.map fun c =>
    if 65 ≤ c.toNat ∧ c.toNat ≤ 90 then Char.ofNat (c.toNat + 32) else c)

/-- LLMInspector._parse_response: normalize action to lowercase (default
"allow"), take the top-level reasons, else reasons from `rules`, else from
`processed_rules`, then map the action onto a Decision constructor. -/
def parseChatResponse (d : ChatResponseData) : Decision :=
  let action := asciiLower (d.action.getD "allow")
  let r1 := d.reasons
  let r2 :=
    if r1.isEmpty then
      match d.rules with
      | some rs => r1 ++ rs.filterMap chatRuleReason
      | none => r1
    else r1
  let r3 :=
    if r2.isEmpty then
      match d.processed_rules with
      | some rs => r2 ++ rs.filterMap processedRuleReason
      | none => r2
    else r2
  if action = "block" then Decision.block r3
  else if action = "sanitize" then Decision.sanitize r3 d.sanitized_content
  else if action = "monitor_only" then Decision.monitorOnly r3
  else Decision.allow r3

/-! ### Canonical messages, joining, and Converse request normalization
(bedrock.py, _parse_converse_messages) -/

/-- A canonical inspection message: the `{role, content}` shape. -/
structure ChatMessage where
  role : String
  content : String
deriving DecidableEq, Repr

/-- Python `" ".join(parts)`. -/
def joinSpace : List String → String
  | [] => ""
  | [p] => p
  | p :: rest => p ++ " " ++ joinSpace rest

/-- Marker text for one tool-result text entry: truncated to 100 characters
followed by "..." when longer (`f"[Tool result: ...]"` in
_parse_converse_messages). -/
def toolResultMarker (s : String) : String :=
  if s.length > 100 then "[Tool result: " ++ s.take 100 ++ "...]"
  else "[Tool result: " ++ s ++ "]"

/-- One entry of a toolResult content list: a dict with a `text` member, or
anything else (which _parse_converse_messages skips). -/
inductive ToolResultContent where
  | trText (s : String)
  | trOther
deriving DecidableEq, Repr

/-- A Converse request content block (the Bedrock ContentBlock union): a text
block, a toolUse block (name defaults to "unknown" when absent), a toolResult
block with its own content list, or any other member of the union. -/
inductive ConverseReqBlock where
  | text (s : String)
  | toolUse (name : Option String)
  | toolResult (content : List ToolResultContent)
  | other
deriving DecidableEq, Repr

/-- Whether a Converse request block is a toolResult block. -/
def ConverseReqBlock.isToolResult : ConverseReqBlock → Bool
  | .toolResult _ => true
  | _ => false

/-- Text parts one Converse request block contributes to the flattened
message content, mirroring the block loop of _parse_converse_messages. -/
def reqBlockParts : ConverseReqBlock → List String
  | .text s => [s]
  | .toolUse name => ["[Tool call: " ++ name.getD "unknown" ++ "]"]
  | .toolResult content =>
    content.filterMap fun rc =>
      match rc with
      | .trText s => some (toolResultMarker s)
      | .trOther => none
  | .other => []

/-- Content of one Converse request message: a list of content blocks, or a
non-list value that the code stringifies (`str(content)`). -/
inductive ConverseMsgContent where
  | blocks (bs : List ConverseReqBlock)
  | raw (s : String)
deriving DecidableEq, Repr

/-- One Converse request message; role defaults to "user" when absent. -/
structure ConverseReqMessage where
  role : Option String
  content : ConverseMsgContent
deriving DecidableEq, Repr

/-- One entry of a Converse system content list: a dict with a `text` member
contributes its text, anything else is skipped. -/
inductive SystemBlock where
  | text (s : String)
  | other
deriving DecidableEq, Repr

/-- The `system` member of Converse api_params: a plain string or a list of
content blocks. -/
inductive ConverseSystem where
  | str (s : String)
  | blocks (bs : List SystemBlock)
deriving DecidableEq, Repr

/-- The Converse api_params fields _parse_converse_messages reads. -/
structure ConverseRequest where
  system : Option ConverseSystem
  messages : List ConverseReqMessage
deriving DecidableEq, Repr

/-- Flattened text of one Converse message's content. -/
def flattenMsgContent : ConverseMsgContent → String
  | .blocks bs => joinSpace (List.flatten (bs.map reqBlockParts))
  | .raw s => s

/-- bedrock.py _parse_converse_messages: an optional system message first,
then each request message flattened; only messages with non-empty flattened
text are emitted. -/
def parseConverseMessages (req : ConverseRequest) : List ChatMessage :=
  let sysMsgs : List ChatMessage :=
    match req.system with
    | some (.str s) => [⟨"system", s⟩]
    | some (.blocks bs) =>
      let t := joinSpace (bs.filterMap fun b =>
        match b with
        | .text s => some s
        | .other => none)
      if t ≠ "" then [⟨"system", t⟩] else []
    | none => []
  let msgs := req.messages.filterMap fun m =>
    let t := flattenMsgContent m.content
    if t ≠ "" then some (⟨m.role.getD "user", t⟩ : ChatMessage) else none
  sysMsgs ++ msgs

/-! ### Bedrock fake-stream synthesizer
(bedrock.py, _BedrockFakeStreamWrapper._generate_events) -/

/-- A Converse response content block (the Bedrock response ContentBlock
union): text, toolUse (with id, name and the json-serialized input the code
produces via json.dumps), or another union member. -/
inductive ConverseOutBlock where
  | text (s : String)
  | toolUse (toolUseId : String) (name : String) (inputJson : String)
  | other
deriving DecidableEq, Repr

/-- The message object of a Converse response; role defaults to "assistant"
and content to []. -/
structure ConverseOutMessage where
  role : Option String
  content : Option (List ConverseOutBlock)
deriving DecidableEq, Repr

/-- The output object of a Converse response. -/
structure ConverseOutput where
  message : Option ConverseOutMessage
deriving DecidableEq, Repr

/-- A non-streaming Converse response (the fields _generate_events and the
post-call extraction read); usage and metrics are JSON objects of numbers,
kept as association lists. -/
structure ConverseResponse where
  output : Option ConverseOutput
  stopReason : Option String
  usage : Option (List (String × Nat))
  metrics : Option (List (String × Nat))
deriving DecidableEq, Repr

/-- Payload of a contentBlockStart event. -/
inductive BlockStartPayload where
  | text
  | toolUse (toolUseId : String) (name : String)
deriving DecidableEq, Repr

/-- Payload of a contentBlockDelta event. -/
inductive BlockDeltaPayload where
  | text (s : String)
  | toolUse (inputJson : String)
deriving DecidableEq, Repr

/-- A Bedrock ConverseStream event as the fake stream yields it. -/
inductive BedrockStreamEvent where
  | messageStart (role : String)
  | contentBlockStart (contentBlockIndex : Nat) (start : BlockStartPayload)
  | contentBlockDelta (contentBlockIndex : Nat) (delta : BlockDeltaPayload)
  | contentBlockStop (contentBlockIndex : Nat)
  | messageStop (stopReason : String)
  | metadata (usage : List (String × Nat)) (metrics : List (String × Nat))
deriving DecidableEq, Repr

/-- The kind of a stream event, forgetting its payload. -/
inductive StreamEventKind where
  | messageStart
  | contentBlockStart
  | contentBlockDelta
  | contentBlockStop
  | messageStop
  | metadata
deriving DecidableEq, Repr

/-- Kind of one event. -/
def BedrockStreamEvent.kind : BedrockStreamEvent → StreamEventKind
  | .messageStart _ => .messageStart
  | .contentBlockStart _ _ => .contentBlockStart
  | .contentBlockDelta _ _ => .contentBlockDelta
  | .contentBlockStop _ => .contentBlockStop
  | .messageStop _ => .messageStop
  | .metadata _ _ => .metadata

/-- Events emitted for one content block at its enumeration index: three
events for a text block, three for a toolUse block, none otherwise. -/
def eventsForBlock (idx : Nat) : ConverseOutBlock → List BedrockStreamEvent
  | .text s =>
    [.contentBlockStart idx .text, .contentBlockDelta idx (.text s), .contentBlockStop idx]
  | .toolUse tid name input =>
    [.contentBlockStart idx (.toolUse tid name),
     .contentBlockDelta idx (.toolUse input), .contentBlockStop idx]
  | .other => []

/-- The block loop of _generate_events (`for idx, block in enumerate(content)`). -/
def eventsForBlocks : Nat → List ConverseOutBlock → List BedrockStreamEvent
  | _, [] => []
  | idx, b :: rest => eventsForBlock idx b ++ eventsForBlocks (idx + 1) rest

/-- The content blocks _generate_events iterates over:
`response.get("output", ).get("message", ).get("content", [])`. -/
def converseContent (r : ConverseResponse) : List ConverseOutBlock :=
  (((r.output.getD ⟨none⟩).message.getD ⟨none, none⟩).content).getD []

/-- _BedrockFakeStreamWrapper._generate_events: messageStart, the per-block
events, messageStop (stopReason defaults to "end_turn"), then metadata with
usage defaulting to an empty object and metrics to one with latencyMs 0. -/
def generateEvents (r : ConverseResponse) : List BedrockStreamEvent :=
  let message := (r.output.getD ⟨none⟩).message.getD ⟨none, none⟩
  BedrockStreamEvent.messageStart (message.role.getD "assistant") ::
    (eventsForBlocks 0 (converseContent r) ++
      [BedrockStreamEvent.messageStop (r.stopReason.getD "end_turn"),
       BedrockStreamEvent.metadata (r.usage.getD []) (r.metrics.getD [("latencyMs", 0)])])

/-- Number of text blocks in a content list. -/
def countText (bs : List ConverseOutBlock) : Nat :=
  bs.countP fun b =>
    match b with
    | .text _ => true
    | _ => false

/-- Number of toolUse blocks in a content list. -/
def countToolUse (bs : List ConverseOutBlock) : Nat :=
  bs.countP fun b =>
    match b with
    | .toolUse _ _ _ => true
    | _ => false

/-! ### Bedrock gateway call handler (bedrock.py, _handle_bedrock_gateway_call) -/

/-- A write into the call-scoped inspection context:
`set_inspection_context(decision=..., done=...)`. -/
structure CtxWrite where
  decision : Decision
  done : Bool
deriving DecidableEq, Repr

/-- The gateway's native response payload (returned verbatim to the caller). -/
structure GatewayResponse where
  body : String
deriving DecidableEq, Repr

/-- Outcome of the POST to the provider gateway. -/
inductive GatewayOutcome where
  | ok (response : GatewayResponse)
  | httpStatusError (msg : String)
  | otherError (msg : String)
deriving DecidableEq, Repr

/-- What _handle_bedrock_gateway_call lets escape to its caller. -/
inductive GatewayError where
  | securityPolicy (e : SecurityPolicyError)
  | httpStatus (msg : String)
  | other (msg : String)
deriving DecidableEq, Repr

/-- bedrock.py _handle_bedrock_gateway_call: raise when the gateway is not
configured; on success record an allow decision and return the native
response; on an httpx.HTTPStatusError consult gateway_mode_fail_open_llm —
when true record Decision.allow(["Gateway error, fail_open=True"]) and raise
SecurityPolicyError carrying Decision.block(["Gateway unavailable"]), when
false re-raise the HTTP status error; re-raise any other error.  The second
component collects the context writes the call performs. -/
def handleBedrockGatewayCall (gatewayUrl gatewayApiKey : String)
    (gatewayFailOpenLLM : Bool) (outcome : GatewayOutcome) :
    Except GatewayError GatewayResponse × List CtxWrite :=
  if gatewayUrl = "" ∨ gatewayApiKey = "" then
    (.error (.securityPolicy ⟨Decision.block ["Bedrock gateway not configured"],
      some "Gateway mode enabled but AGENTSEC_BEDROCK_GATEWAY_URL not set"⟩), [])
  else
    match outcome with
    | .ok resp =>
      (.ok resp, [⟨Decision.allow ["Gateway handled inspection"], true⟩])
    | .httpStatusError msg =>
      if gatewayFailOpenLLM then
        (.error (.securityPolicy ⟨Decision.block ["Gateway unavailable"],
          some ("Gateway HTTP error: " ++ msg)⟩),
         [⟨Decision.allow ["Gateway error, fail_open=True"], true⟩])
      else
        (.error (.httpStatus msg), [])
    | .otherError msg => (.error (.other msg), [])

/-! ### API-mode inspectors: retry loop and fail-open policy
(api_llm.py LLMInspector, api_mcp.py MCPInspector).  The HTTP posts are
modelled by a list holding each attempt's outcome: a parsed JSON response or
the exception the attempt raised. -/

/-- A Python exception as the error handlers see it: its type name
(`type(error).__name__`) and its string rendering (`str(error)`). -/
structure ExcInfo where
  typeName : String
  msg : String
deriving DecidableEq, Repr

/-- The retry loop shared by the inspectors
(`for attempt in range(self.retry_attempts)`): return the first successful
response, otherwise the last error; also counts the attempts performed. -/
def attemptLoop {α : Type} : List (Except ExcInfo α) → Option ExcInfo → Nat →
    Except (Option ExcInfo) α × Nat
  | [], lastErr, n => (.error lastErr, n)
  | .ok r :: _, _, n => (.ok r, n + 1)
  | .error e :: rest, _, n => attemptLoop rest (some e) (n + 1)

/-- LLMInspector._handle_error: with fail_open return
Decision.allow(["API error (type), fail_open=True"]), otherwise raise
SecurityPolicyError carrying Decision.block(["API error: type: msg"]). -/
def llmHandleError (failOpen : Bool) (e : ExcInfo) : Except SecurityPolicyError Decision :=
  if failOpen then
    .ok (Decision.allow ["API error (" ++ e.typeName ++ "), fail_open=True"])
  else
    .error ⟨Decision.block ["API error: " ++ e.typeName ++ ": " ++ e.msg],
      some ("AI Defense API unavailable and fail_open=False: " ++ e.msg)⟩

/-- MCPInspector._handle_error: same policy with MCP-specific reason texts. -/
def mcpHandleError (failOpen : Bool) (e : ExcInfo) : Except SecurityPolicyError Decision :=
  if failOpen then
    .ok (Decision.allow ["MCP inspection error (" ++ e.typeName ++ "), fail_open=True"])
  else
    .error ⟨Decision.block ["MCP inspection error: " ++ e.typeName ++ ": " ++ e.msg],
      some ("MCP inspection failed and fail_open=False: " ++ e.msg)⟩

/-- Configuration of an LLMInspector instance.  endpoint and apiKey model
`self.endpoint` / `self.api_key`, with "" standing for an unset (None or
empty, hence falsy) value; retryAttempts is `max(1, retry_attempts)` as the
constructor clamps it. -/
structure LLMInspectorCfg where
  endpoint : String
  apiKey : String
  retryAttempts : Nat
  failOpen : Bool
deriving DecidableEq, Repr

/-- Configuration of an MCPInspector instance (endpoint already normalized by
the constructor; "" stands for unset). -/
structure MCPInspectorCfg where
  endpoint : String
  apiKey : String
  retryAttempts : Nat
  failOpen : Bool
deriving DecidableEq, Repr

/-- LLMInspector.inspect_conversation / ainspect_conversation (both run this
same logic): allow immediately with no HTTP request when endpoint or api key
is unconfigured; otherwise post up to retryAttempts times, parse the first
successful response, and hand the last error to _handle_error after exhausted
retries.  Returns the decision (or the raised SecurityPolicyError) together
with the number of HTTP requests performed.  A loop that never ran leaves
last_error = None, whose Python type name and rendering are "NoneType" and
"None". -/
def inspectConversation (cfg : LLMInspectorCfg) (messages : List ChatMessage)
    (attempts : List (Except ExcInfo ChatResponseData)) :
    Except SecurityPolicyError Decision × Nat :=
  if cfg.endpoint = "" ∨ cfg.apiKey = "" then (.ok (Decision.allow []), 0)
  else
    match attemptLoop (attempts.take cfg.retryAttempts) none 0 with
    | (.ok r, n) => (.ok (parseChatResponse r), n)
    | (.error none, n) => (llmHandleError cfg.failOpen ⟨"NoneType", "None"⟩, n)
    | (.error (some e), n) => (llmHandleError cfg.failOpen e, n)

/-- MCPInspector.inspect_request / ainspect_request: allow immediately with no
HTTP request when unconfigured; otherwise post the JSON-RPC request envelope
with retries and parse, handing the last error to _handle_error. -/
def mcpInspectRequest (cfg : MCPInspectorCfg)
    (attempts : List (Except ExcInfo MCPResponse)) :
    Except SecurityPolicyError Decision × Nat :=
  if cfg.endpoint = "" ∨ cfg.apiKey = "" then (.ok (Decision.allow []), 0)
  else
    match attemptLoop (attempts.take cfg.retryAttempts) none 0 with
    | (.ok r, n) => (.ok (parseMcpResponse r), n)
    | (.error none, n) => (mcpHandleError cfg.failOpen ⟨"NoneType", "None"⟩, n)
    | (.error (some e), n) => (mcpHandleError cfg.failOpen e, n)

/-- MCPInspector.inspect_response / ainspect_response: identical control flow
to mcpInspectRequest over the JSON-RPC response envelope. -/
def mcpInspectResponse (cfg : MCPInspectorCfg)
    (attempts : List (Except ExcInfo MCPResponse)) :
    Except SecurityPolicyError Decision × Nat :=
  if cfg.endpoint = "" ∨ cfg.apiKey = "" then (.ok (Decision.allow []), 0)
  else
    match attemptLoop (attempts.take cfg.retryAttempts) none 0 with
    | (.ok r, n) => (.ok (parseMcpResponse r), n)
    | (.error none, n) => (mcpHandleError cfg.failOpen ⟨"NoneType", "None"⟩, n)
    | (.error (some e), n) => (mcpHandleError cfg.failOpen e, n)

/-! ### Provider call wrappers, API mode
(bedrock.py _wrap_make_api_call on a Converse call, mcp.py _wrap_call_tool).
The inspector calls, the delegated provider/tool call and the post-call
inspection are environment outcomes passed as arguments. -/

/-- The LLM/MCP mode (_state.get_llm_mode / get_mcp_mode). -/
inductive AgentMode where
  | off
  | monitor
  | on_enforce
deriving DecidableEq, Repr

/-- _enforce_decision (identical in bedrock.py and mcp.py): raise
SecurityPolicyError(decision) iff the mode is on_enforce and the decision's
action is block. -/
def enforceDecision (mode : AgentMode) (d : Decision) : Except SecurityPolicyError Unit :=
  if mode = AgentMode.on_enforce ∧ d.action = DecisionAction.block then .error ⟨d, none⟩
  else .ok ()

/-- Outcome of one inspector invocation as the wrapper observes it: a
returned Decision, a raised SecurityPolicyError (the inspector's fail-closed
path), or any other exception. -/
inductive InspectOutcome where
  | ok (d : Decision)
  | spe (e : SecurityPolicyError)
  | err (typeName : String) (msg : String)
deriving DecidableEq, Repr

/-- What a patched call can let escape: a SecurityPolicyError, or the
delegated call's own exception forwarded unchanged. -/
inductive WrapError where
  | securityPolicy (e : SecurityPolicyError)
  | provider (msg : String)
deriving DecidableEq, Repr

deriving instance DecidableEq for Except

/-- Observable outcome of one patched call: its result or raised error,
whether the wrapped function was invoked, and the context writes performed. -/
structure WrapResult (α : Type) where
  result : Except WrapError α
  wrappedCalled : Bool
  writes : List CtxWrite
deriving DecidableEq, Repr

/-- bedrock.py _handle_patcher_error: Decision.allow under fail_open, raise
SecurityPolicyError carrying Decision.block otherwise. -/
def handlePatcherError (failOpen : Bool) (typeName msg : String) :
    Except SecurityPolicyError Decision :=
  if failOpen then
    .ok (Decision.allow ["Inspection error (" ++ typeName ++ "), fail_open=True"])
  else
    .error ⟨Decision.block ["Inspection error: " ++ typeName ++ ": " ++ msg],
      some ("Inspection failed and fail_open=False: " ++ msg)⟩

/-- Assistant content extracted from a Converse response by the post-call
branch of _wrap_make_api_call: the joined texts of the text content blocks. -/
def converseAssistantContent (resp : ConverseResponse) : String :=
  joinSpace ((converseContent resp).filterMap fun b =>
    match b with
    | .text s => some s
    | _ => none)

/-- bedrock.py _wrap_make_api_call on a Converse operation in API mode (no
gateway, no skip guard, context not yet done): with mode off, forward
unchanged; otherwise inspect the normalized messages when non-empty (writing
the decision into the context, then enforcing it; other inspection errors go
through _handle_patcher_error), delegate to the wrapped call, and when the
response carries assistant content re-inspect, write the decision with
done=True and enforce it; a non-SecurityPolicyError failure of the post-call
inspection is logged and swallowed. -/
def wrapBedrockConverseApi (mode : AgentMode) (apiFailOpenLLM : Bool)
    (messages : List ChatMessage) (pre : InspectOutcome)
    (delegate : Except String ConverseResponse) (post : InspectOutcome) :
    WrapResult ConverseResponse :=
  if mode = AgentMode.off then
    match delegate with
    | .ok resp => ⟨.ok resp, true, []⟩
    | .error e => ⟨.error (.provider e), true, []⟩
  else
    let preRes : Except (WrapError × List CtxWrite) (List CtxWrite) :=
      if messages.isEmpty then .ok []
      else
        match pre with
        | .ok d =>
          match enforceDecision mode d with
          | .ok _ => .ok [⟨d, false⟩]
          | .error e => .error (.securityPolicy e, [⟨d, false⟩])
        | .spe e => .error (.securityPolicy e, [])
        | .err t m =>
          match handlePatcherError apiFailOpenLLM t m with
          | .ok d => .ok [⟨d, false⟩]
          | .error e => .error (.securityPolicy e, [])
    match preRes with
    | .error (e, ws) => ⟨.error e, false, ws⟩
    | .ok ws =>
      match delegate with
      | .error e => ⟨.error (.provider e), true, ws⟩
      | .ok resp =>
        if converseAssistantContent resp = "" ∨ messages.isEmpty then
          ⟨.ok resp, true, ws⟩
        else
          match post with
          | .ok d =>
            match enforceDecision mode d with
            | .ok _ => ⟨.ok resp, true, ws ++ [⟨d, true⟩]⟩
            | .error e => ⟨.error (.securityPolicy e), true, ws ++ [⟨d, true⟩]⟩
          | .spe e => ⟨.error (.securityPolicy e), true, ws⟩
          | .err _ _ => ⟨.ok resp, true, ws⟩

/-- mcp.py _wrap_call_tool in API mode (no gateway, no skip guard): with mode
off, forward unchanged; otherwise pre-inspect the tool call (writing the
decision, then enforcing; a non-SecurityPolicyError inspection failure raises
a block SecurityPolicyError when the inspector's fail_open is false and is
otherwise logged and swallowed without a context write), delegate, then
post-inspect the result, writing the decision with done=True and enforcing
it; a non-SecurityPolicyError post-call failure is swallowed. -/
def wrapMcpCallTool (mode : AgentMode) (inspectorFailOpen : Bool)
    (pre : InspectOutcome) (delegate : Except String String)
    (post : InspectOutcome) : WrapResult String :=
  if mode = AgentMode.off then
    match delegate with
    | .ok r => ⟨.ok r, true, []⟩
    | .error e => ⟨.error (.provider e), true, []⟩
  else
    let preRes : Except (WrapError × List CtxWrite) (List CtxWrite) :=
      match pre with
      | .ok d =>
        match enforceDecision mode d with
        | .ok _ => .ok [⟨d, false⟩]
        | .error e => .error (.securityPolicy e, [⟨d, false⟩])
      | .spe e => .error (.securityPolicy e, [])
      | .err _ m =>
        if inspectorFailOpen then .ok []
        else .error (.securityPolicy ⟨Decision.block ["MCP inspection error: " ++ m],
          some ("MCP inspection failed: " ++ m)⟩, [])
    match preRes with
    | .error (e, ws) => ⟨.error e, false, ws⟩
    | .ok ws =>
      match delegate with
      | .error e => ⟨.error (.provider e), true, ws⟩
      | .ok r =>
        match post with
        | .ok d =>
          match enforceDecision mode d with
          | .ok _ => ⟨.ok r, true, ws ++ [⟨d, true⟩]⟩
          | .error e => ⟨.error (.securityPolicy e), true, ws ++ [⟨d, true⟩]⟩
        | .spe e => ⟨.error (.securityPolicy e), true, ws⟩
        | .err _ _ => ⟨.ok r, true, ws⟩

/-! ### HTTP inspection request validation
(http_inspect.py, HttpInspectionClient.validate_inspection_request;
request_handler.py, BaseRequestHandler.VALID_HTTP_METHODS) -/

/-- BaseRequestHandler.VALID_HTTP_METHODS (request_handler.py line 39).
Note that this name is a class attribute of BaseRequestHandler: it is not a
module-level name of http_inspect.py, and http_inspect.py does not import it,
so the bare reference `VALID_HTTP_METHODS` inside
validate_inspection_request (http_inspect.py line 482) does not resolve to
this set — it raises NameError at runtime (see validateInspectionRequest
below). -/
def VALID_HTTP_METHODS : List String :=
  ["GET", "POST", "PUT", "DELETE", "PATCH", "HEAD", "OPTIONS"]

/-- The serialized http_req object as validation reads it (a missing or null
member is `none`; Python string truthiness makes `some ""` falsy too). -/
structure HttpReqDict where
  method : Option String
  body : Option String
deriving DecidableEq, Repr

/-- The serialized http_res object as validation reads it. -/
structure HttpResDict where
  statusCode : Option Int
  body : Option String
deriving DecidableEq, Repr

/-- One serialized Rule entry of config.enabled_rules (only the list's
presence and length matter to validation). -/
structure RuleDict where
  rule_name : Option String
deriving DecidableEq, Repr

/-- The serialized config object as validation reads it. -/
structure InspectionConfigDict where
  enabled_rules : Option (List RuleDict)
deriving DecidableEq, Repr

/-- The serialized HTTP-inspection request dict.  `none` models a missing or
falsy member: validation guards http_req behind `if not http_req` and
http_res behind `if http_res`, so a null or empty object behaves like a
missing one; config is checked whenever it `is not None`.  The http_meta and
metadata members are not read by validation and are omitted. -/
structure HttpInspectRequestDict where
  http_req : Option HttpReqDict
  http_res : Option HttpResDict
  config : Option InspectionConfigDict
deriving DecidableEq, Repr

/-- An exception escaping validate_inspection_request: the ValidationError
the method documents, or Python's NameError for an undefined bare name. -/
inductive PyError where
  | validationError (msg : String)
  | nameError (msg : String)
deriving DecidableEq, Repr

/-- HttpInspectionClient.validate_inspection_request as staged: config (when
present) must carry a non-empty enabled_rules list; http_req must be present
with a non-empty body and a method.  The method check at http_inspect.py
line 482 then evaluates the bare name VALID_HTTP_METHODS, which is neither
imported into nor defined in http_inspect.py (it exists only as a class
attribute of BaseRequestHandler in request_handler.py, invisible to a bare
name in another module's method body), so reaching that line raises
NameError before any membership test; the http_res checks at lines 484-490
are unreachable on every input. -/
def validateInspectionRequest (d : HttpInspectRequestDict) : Except PyError Unit :=
  match d.config with
  | some cfg =>
    match cfg.enabled_rules with
    | none => .error (.validationError
        "config.enabled_rules must be a non-empty list of Rule objects.")
    | some [] => .error (.validationError
        "config.enabled_rules must be a non-empty list of Rule objects.")
    | some (_ :: _) => validateHttpParts d
  | none => validateHttpParts d
where
  /-- The http_req checks that follow the config check; evaluating the
  method-set condition raises NameError. -/
  validateHttpParts (d : HttpInspectRequestDict) : Except PyError Unit :=
    match d.http_req with
    | none => .error (.validationError "'http_req' must be provided.")
    | some req =>
      if req.body.getD "" = "" then
        .error (.validationError "'http_req' must have a non-empty 'body'.")
      else if req.method.getD "" = "" then
        .error (.validationError "'http_req' must have a 'method'.")
      else
        .error (.nameError "name 'VALID_HTTP_METHODS' is not defined")

/-! ### Base64 helpers (runtime/utils.py, to_base64_bytes / from_base64_bytes).
These wrap CPython's base64.b64encode / b64decode, embedded here as the
standard RFC 4648 algorithm with padding, on bytes modelled as natural
numbers below 256. -/

/-- The base64 alphabet. -/
def b64Alphabet : List Char :=
  "ABCDEFGHIJKLMNOPQRSTUVWXYZabcdefghijklmnopqrstuvwxyz0123456789+/".toList

/-- Character encoding a 6-bit group. -/
def b64Char (n : Nat) : Char := b64Alphabet.getD n 'A'

/-- Index of a character in the base64 alphabet. -/
def b64Index (c : Char) : Nat := b64Alphabet.indexOf c

/-- base64.b64encode: encode bytes in groups of three, with '=' padding. -/
def b64EncodeChunks : List Nat → List Char
  | [] => []
  | [a] => [b64Char (a / 4), b64Char (a % 4 * 16), '=', '=']
  | [a, b] => [b64Char (a / 4), b64Char (a % 4 * 16 + b / 16), b64Char (b % 16 * 4), '=']
  | a :: b :: c :: rest =>
    b64Char (a / 4) :: b64Char (a % 4 * 16 + b / 16) ::
      b64Char (b % 16 * 4 + c / 64) :: b64Char (c % 64) :: b64EncodeChunks rest

/-- base64.b64decode on well-formed base64 text: decode groups of four
characters, honoring '=' padding. -/
def b64DecodeChars : List Char → List Nat
  | c1 :: c2 :: c3 :: c4 :: rest =>
    if c3 = '=' then [b64Index c1 * 4 + b64Index c2 / 16]
    else if c4 = '=' then
      [b64Index c1 * 4 + b64Index c2 / 16, b64Index c2 % 16 * 16 + b64Index c3 / 4]
    else
      (b64Index c1 * 4 + b64Index c2 / 16) ::
        (b64Index c2 % 16 * 16 + b64Index c3 / 4) ::
        ((b64Index c3 % 4 * 64 + b64Index c4) :: b64DecodeChars rest)
  | _ => []

/-- The UTF-8 encoding of a string, as bytes. -/
def utf8Bytes (s : String) : List Nat :=
  s.toUTF8.toList.map (fun b => b.toNat)

/-- utils.to_base64_bytes on a bytes argument:
`base64.b64encode(data).decode()`. -/
def to_base64_bytes (data : List Nat) : String :=
  String.mk (b64EncodeChunks data)

/-- utils.to_base64_bytes on a str argument:
`base64.b64encode(data.encode()).decode()` (UTF-8 first). -/
def to_base64_bytes_of_str (data : String) : String :=
  String.mk (b64EncodeChunks (utf8Bytes data))

/-- utils.from_base64_bytes: `base64.b64decode(b64str)`. -/
def from_base64_bytes (b64str : String) : List Nat :=
  b64DecodeChars b64str.toList

/-! ## Theorems -/

/-- C1: for a Bedrock call routed through the LLM gateway failing with an
HTTP status error, the code records Decision.allow(["Gateway error,
fail_open=True"]) when gateway_mode_fail_open_llm is true but then raises a
SecurityPolicyError carrying Decision.block(["Gateway unavailable"]) instead
of letting the transport failure propagate; and when the flag is false it
re-raises the transport error instead of raising a SecurityPolicyError.  The
two branches are inverted relative to the claim (and to the fail-open policy
every other handler of this codebase implements); evaluated here at a
concrete 503 failure under both flag values. -/
theorem bedrock_gateway_fail_open_inverted :
    handleBedrockGatewayCall "https://gw.example" "key" true
        (GatewayOutcome.httpStatusError "503 Service Unavailable") =
      (Except.error (GatewayError.securityPolicy
        ⟨Decision.block ["Gateway unavailable"],
         some "Gateway HTTP error: 503 Service Unavailable"⟩),
       [⟨Decision.allow ["Gateway error, fail_open=True"], true⟩]) ∧
    handleBedrockGatewayCall "https://gw.example" "key" false
        (GatewayOutcome.httpStatusError "503 Service Unavailable") =
      (Except.error (GatewayError.httpStatus "503 Service Unavailable"), []) := by
  decide

/-- C4: the Decision parsed from an MCP inspection response has action block
iff the (extracted) result's action field equals "Block" or its is_safe field
is false; in every other case the action is allow (the parser only ever
produces block or allow). -/
theorem mcp_decision_block_iff (resp : MCPResponse) :
    ((parseMcpResponse resp).action = DecisionAction.block ↔
      (resp.extract.action = some "Block" ∨ resp.extract.is_safe = some false)) ∧
    ((parseMcpResponse resp).action ≠ DecisionAction.block →
      (parseMcpResponse resp).action = DecisionAction.allow) := by
  have h1 : (resp.extract.action.getD "Allow" = "Block") ↔
      resp.extract.action = some "Block" := by
    cases h : resp.extract.action <;> simp [Option.getD]
  have h2 : (resp.extract.is_safe.getD true = false) ↔
      resp.extract.is_safe = some false := by
    cases h : resp.extract.is_safe <;> simp [Option.getD]
  rw [parseMcpResponse, parseMCPResult]
  by_cases h : resp.extract.action.getD "Allow" = "Block" ∨
      resp.extract.is_safe.getD true = false
  · rw [if_pos h]
    exact ⟨iff_of_true rfl (h.imp h1.mp h2.mp), fun hc => absurd rfl hc⟩
  · rw [if_neg h]
    refine ⟨iff_of_false (by simp [Decision.allow]) (fun hc => h (hc.imp h1.mpr h2.mpr)), ?_⟩
    intro _
    rfl

/-- C8 counterexample: with no top-level reasons, an empty rules list and a
processed_rules entry classified NONE_SEVERITY, the rules-stage filter (the
filter the claim says the fallback also uses) keeps nothing, yet the parser
emits the NONE_SEVERITY reason: the processed_rules fallback does not apply
the same classification filter. -/
theorem chat_processed_rules_filter_differs :
    (([⟨some "r", some "NONE_SEVERITY"⟩] : List ChatRule).filterMap chatRuleReason = []) ∧
    (parseChatResponse ⟨none, [], none, some [], some [⟨some "r", some "NONE_SEVERITY"⟩]⟩).reasons
      = ["r: NONE_SEVERITY"] := by
  decide

/-- C8 amended: when the top-level reasons list is empty, the Decision's
reasons are the rules entries with a truthy classification outside
NONE_VIOLATION and NONE_SEVERITY, formatted "rule_name: classification";
if that yields nothing they are the processed_rules entries filtered only
against a missing classification and NONE_VIOLATION (NONE_SEVERITY passes
this fallback filter), formatted the same way. -/
theorem chat_reasons_fallback (d : ChatResponseData) (h : d.reasons = []) :
    (parseChatResponse d).reasons =
      (if ((d.rules.getD []).filterMap chatRuleReason).isEmpty then
        (d.processed_rules.getD []).filterMap processedRuleReason
       else (d.rules.getD []).filterMap chatRuleReason) := by
  obtain ⟨action, reasons, sc, rules, prules⟩ := d
  simp only at h
  subst h
  have key : ∀ r3 : List String,
      (if asciiLower (action.getD "allow") = "block" then Decision.block r3
       else if asciiLower (action.getD "allow") = "sanitize" then Decision.sanitize r3 sc
       else if asciiLower (action.getD "allow") = "monitor_only" then Decision.monitorOnly r3
       else Decision.allow r3).reasons = r3 := by
    intro r3
    split
    · rfl
    · split
      · rfl
      · split <;> rfl
  cases rules with
  | none =>
    cases prules with
    | none => simpa [parseChatResponse] using key []
    | some ps => simpa [parseChatResponse] using key (ps.filterMap processedRuleReason)
  | some rs =>
    by_cases hr : (rs.filterMap chatRuleReason).isEmpty
    · rw [List.isEmpty_iff] at hr
      cases prules with
      | none => simp [parseChatResponse, hr, key]
      | some ps => simp [parseChatResponse, hr, key]
    · have hne : rs.filterMap chatRuleReason ≠ [] := by
        intro hh
        exact hr (by simp [hh])
      cases prules with
      | none => simp [parseChatResponse, hne, key, List.isEmpty_iff]
      | some ps => simp [parseChatResponse, hne, key, List.isEmpty_iff]

/-- C8 witness: the amended theorem applied to a concrete response with no
top-level reasons, one NONE_VIOLATION rule and one violating processed rule. -/
theorem chat_reasons_fallback_witness :
    (parseChatResponse ⟨some "Block", [], none,
        some [⟨some "Prompt Injection", some "NONE_VIOLATION"⟩],
        some [⟨some "Prompt Injection", some "SECURITY_VIOLATION"⟩]⟩).reasons =
      (if (((some [⟨some "Prompt Injection", some "NONE_VIOLATION"⟩] :
              Option (List ChatRule)).getD []).filterMap chatRuleReason).isEmpty then
        ((some [⟨some "Prompt Injection", some "SECURITY_VIOLATION"⟩] :
          Option (List ChatRule)).getD []).filterMap processedRuleReason
       else ((some [⟨some "Prompt Injection", some "NONE_VIOLATION"⟩] :
          Option (List ChatRule)).getD []).filterMap chatRuleReason) :=
  chat_reasons_fallback ⟨some "Block", [], none,
    some [⟨some "Prompt Injection", some "NONE_VIOLATION"⟩],
    some [⟨some "Prompt Injection", some "SECURITY_VIOLATION"⟩]⟩ rfl

/-- C2 counterexample: a Bedrock call in API mode with mode=monitor whose
pre-call inspection yields a block decision can still raise: if the post-call
inspection exhausts its retries under fail_open=False, the inspector's
SecurityPolicyError propagates out of the wrapper, so "no exception is
raised" does not hold for every monitor-mode call with a pre-call block. -/
theorem monitor_mode_post_fail_closed_raises :
    (wrapBedrockConverseApi AgentMode.monitor false [⟨"user", "Hi"⟩]
      (InspectOutcome.ok (Decision.block ["pre-call block"]))
      (Except.ok ⟨some ⟨some ⟨some "assistant", some [ConverseOutBlock.text "Hello"]⟩⟩,
        none, none, none⟩)
      (InspectOutcome.spe ⟨Decision.block ["API error: ConnectError: boom"],
        some "AI Defense API unavailable and fail_open=False: boom"⟩)).result =
    Except.error (WrapError.securityPolicy ⟨Decision.block ["API error: ConnectError: boom"],
      some "AI Defense API unavailable and fail_open=False: boom"⟩) := by
  decide

/-- C2 amended: for an intercepted Bedrock LLM call or MCP tool call in API
mode whose pre-call inspection yields a block decision — under on_enforce a
SecurityPolicyError carrying that decision is raised, the wrapped function is
never invoked, and the only context write is the block decision; under
monitor the wrapped function is invoked, the block decision is the first
context write, and the block decision itself raises nothing: the call returns
the wrapped result whenever delegation succeeds and the post-call inspection
does not itself raise a SecurityPolicyError (for example through its
fail-closed error policy). -/
theorem block_enforcement_by_mode
    (messages : List ChatMessage) (hm : messages ≠ [])
    (d : Decision) (hd : d.action = DecisionAction.block)
    (failOpenB failOpenM : Bool)
    (delegateB : Except String ConverseResponse) (delegateM : Except String String)
    (postB postM : InspectOutcome) :
    (wrapBedrockConverseApi AgentMode.on_enforce failOpenB messages
        (InspectOutcome.ok d) delegateB postB =
      ⟨Except.error (WrapError.securityPolicy ⟨d, none⟩), false, [⟨d, false⟩]⟩) ∧
    (wrapMcpCallTool AgentMode.on_enforce failOpenM (InspectOutcome.ok d) delegateM postM =
      ⟨Except.error (WrapError.securityPolicy ⟨d, none⟩), false, [⟨d, false⟩]⟩) ∧
    ((wrapBedrockConverseApi AgentMode.monitor failOpenB messages
        (InspectOutcome.ok d) delegateB postB).wrappedCalled = true ∧
     (wrapBedrockConverseApi AgentMode.monitor failOpenB messages
        (InspectOutcome.ok d) delegateB postB).writes.head? = some ⟨d, false⟩ ∧
     (∀ resp, delegateB = Except.ok resp → (∀ e, postB ≠ InspectOutcome.spe e) →
       (wrapBedrockConverseApi AgentMode.monitor failOpenB messages
         (InspectOutcome.ok d) delegateB postB).result = Except.ok resp)) ∧
    ((wrapMcpCallTool AgentMode.monitor failOpenM
        (InspectOutcome.ok d) delegateM postM).wrappedCalled = true ∧
     (wrapMcpCallTool AgentMode.monitor failOpenM
        (InspectOutcome.ok d) delegateM postM).writes.head? = some ⟨d, false⟩ ∧
     (∀ r, delegateM = Except.ok r → (∀ e, postM ≠ InspectOutcome.spe e) →
       (wrapMcpCallTool AgentMode.monitor failOpenM
         (InspectOutcome.ok d) delegateM postM).result = Except.ok r)) := by
  have hmm : messages.isEmpty = false := by
    simpa [List.isEmpty_iff] using hm
  have henf : enforceDecision AgentMode.on_enforce d = Except.error ⟨d, none⟩ := by
    simp [enforceDecision, hd]
  have hmon : enforceDecision AgentMode.monitor d = Except.ok () := by
    simp [enforceDecision]
  refine ⟨?_, ?_, ?_, ?_⟩
  · simp [wrapBedrockConverseApi, hmm, henf]
  · simp [wrapMcpCallTool, henf]
  · refine ⟨?_, ?_, ?_⟩
    · simp only [wrapBedrockConverseApi, hmm, hmon]
      cases delegateB with
      | error e => simp
      | ok resp =>
        by_cases hc : converseAssistantContent resp = ""
        · simp [hc]
        · cases postM <;> cases postB <;>
            simp [hc, hmm, enforceDecision]
    · simp only [wrapBedrockConverseApi, hmm, hmon]
      cases delegateB with
      | error e => simp
      | ok resp =>
        by_cases hc : converseAssistantContent resp = ""
        · simp [hc]
        · cases postB <;>
            simp [hc, hmm, enforceDecision]
    · intro resp hresp hpost
      subst hresp
      simp only [wrapBedrockConverseApi, hmm, hmon]
      by_cases hc : converseAssistantContent resp = ""
      · simp [hc]
      · cases postB with
        | ok d2 => simp [hc, hmm, enforceDecision]
        | spe e => exact absurd rfl (hpost e)
        | err t m => simp [hc, hmm]
  · refine ⟨?_, ?_, ?_⟩
    · simp only [wrapMcpCallTool, hmon]
      cases delegateM with
      | error e => simp
      | ok r =>
        cases postM <;> simp [enforceDecision]
    · simp only [wrapMcpCallTool, hmon]
      cases delegateM with
      | error e => simp
      | ok r =>
        cases postM <;> simp [enforceDecision]
    · intro r hr hpost
      subst hr
      simp only [wrapMcpCallTool, hmon]
      cases postM with
      | ok d2 => simp [enforceDecision]
      | spe e => exact absurd rfl (hpost e)
      | err t m => simp

/-- C2 witness: the on_enforce half of the amended theorem at a concrete
blocked Bedrock call. -/
theorem block_enforcement_witness :
    wrapBedrockConverseApi AgentMode.on_enforce true [⟨"user", "Hi"⟩]
        (InspectOutcome.ok (Decision.block ["Prompt Injection: SECURITY_VIOLATION"]))
        (Except.ok ⟨none, none, none, none⟩) (InspectOutcome.ok (Decision.allow [])) =
      ⟨Except.error (WrapError.securityPolicy
        ⟨Decision.block ["Prompt Injection: SECURITY_VIOLATION"], none⟩), false,
       [⟨Decision.block ["Prompt Injection: SECURITY_VIOLATION"], false⟩]⟩ :=
  (block_enforcement_by_mode [⟨"user", "Hi"⟩] (by decide)
    (Decision.block ["Prompt Injection: SECURITY_VIOLATION"]) rfl true true
    (Except.ok ⟨none, none, none, none⟩) (Except.ok "out")
    (InspectOutcome.ok (Decision.allow [])) (InspectOutcome.ok (Decision.allow []))).1

/-- The retry loop on a list of all-failing attempts ends with the last
attempt's error. -/
theorem attemptLoop_all_errors {α : Type} :
    ∀ (l : List (Except ExcInfo α)) (e : ExcInfo),
      (∀ a ∈ l, ∃ x, a = Except.error x) → l.getLast? = some (Except.error e) →
      ∀ (acc : Option ExcInfo) (n : Nat), (attemptLoop l acc n).1 = Except.error (some e)
  | [], e, _, hlast, _, _ => by simp at hlast
  | a :: rest, e, hall, hlast, acc, n => by
    obtain ⟨x, hx⟩ := hall a (List.mem_cons_self a rest)
    subst hx
    cases rest with
    | nil =>
      simp only [List.getLast?_singleton, Option.some.injEq, Except.error.injEq] at hlast
      subst hlast
      rfl
    | cons b tl =>
      have htail : (b :: tl).getLast? = some (Except.error e) := by
        simpa [List.getLast?_cons_cons] using hlast
      have hall2 : ∀ a ∈ b :: tl, ∃ x, a = Except.error x :=
        fun a ha => hall a (List.mem_cons_of_mem _ ha)
      simpa [attemptLoop] using
        attemptLoop_all_errors (b :: tl) e hall2 htail (some x) (n + 1)

/-- C3: an API-mode LLM inspection (the sync and async variants run the same
loop and error handler) whose every attempt raises: with fail_open the call
returns Decision.allow with exactly the reason "API error (type),
fail_open=True" built from the last attempt's exception type; without
fail_open it raises a SecurityPolicyError carrying Decision.block with the
reason "API error: type: msg". -/
theorem llm_inspect_exhausted_retries (cfg : LLMInspectorCfg)
    (messages : List ChatMessage) (attempts : List (Except ExcInfo ChatResponseData))
    (e : ExcInfo) (hend : cfg.endpoint ≠ "") (hkey : cfg.apiKey ≠ "")
    (hlen : attempts.length = cfg.retryAttempts)
    (hall : ∀ a ∈ attempts, ∃ x, a = Except.error x)
    (hlast : attempts.getLast? = some (Except.error e)) :
    (cfg.failOpen = true →
      (inspectConversation cfg messages attempts).1 =
        Except.ok (Decision.allow ["API error (" ++ e.typeName ++ "), fail_open=True"])) ∧
    (cfg.failOpen = false →
      (inspectConversation cfg messages attempts).1 =
        Except.error ⟨Decision.block ["API error: " ++ e.typeName ++ ": " ++ e.msg],
          some ("AI Defense API unavailable and fail_open=False: " ++ e.msg)⟩) := by
  have htake : attempts.take cfg.retryAttempts = attempts := by
    rw [← hlen]
    exact List.take_length attempts
  have hloop : (attemptLoop (attempts.take cfg.retryAttempts) none 0).1 =
      Except.error (some e) := by
    rw [htake]
    exact attemptLoop_all_errors attempts e hall hlast none 0
  have hcfg : ¬(cfg.endpoint = "" ∨ cfg.apiKey = "") := by
    rintro (h | h) <;> [exact hend h; exact hkey h]
  constructor <;> intro hfo
  · rw [inspectConversation, if_neg hcfg]
    rcases hres : attemptLoop (attempts.take cfg.retryAttempts) none 0 with ⟨r, n⟩
    rw [hres] at hloop
    simp only at hloop
    subst hloop
    simp [llmHandleError, hfo]
  · rw [inspectConversation, if_neg hcfg]
    rcases hres : attemptLoop (attempts.take cfg.retryAttempts) none 0 with ⟨r, n⟩
    rw [hres] at hloop
    simp only at hloop
    subst hloop
    simp [llmHandleError, hfo]

/-- C3 witness: the fail-open half at a concrete two-attempt failure. -/
theorem llm_inspect_exhausted_retries_witness :
    (inspectConversation ⟨"https://ai-defense.example", "key", 2, true⟩ [⟨"user", "Hi"⟩]
      [Except.error ⟨"ConnectError", "refused"⟩,
       Except.error ⟨"TimeoutException", "timed out"⟩]).1 =
      Except.ok (Decision.allow ["API error (TimeoutException), fail_open=True"]) :=
  (llm_inspect_exhausted_retries ⟨"https://ai-defense.example", "key", 2, true⟩
    [⟨"user", "Hi"⟩]
    [Except.error ⟨"ConnectError", "refused"⟩, Except.error ⟨"TimeoutException", "timed out"⟩]
    ⟨"TimeoutException", "timed out"⟩ (by decide) (by decide) (by decide)
    (by rintro a ha; fin_cases ha <;> exact ⟨_, rfl⟩) (by decide)).1 rfl

/-- C10: an API-mode LLM conversation inspection or MCP request/response
inspection (the async variants share this logic) invoked while the inspector
lacks an endpoint or an API key returns Decision.allow with empty reasons and
performs zero HTTP requests, whatever the fail_open flag, retry budget and
attempt outcomes. -/
theorem unconfigured_inspectors_allow (llmCfg : LLMInspectorCfg) (mcpCfg : MCPInspectorCfg)
    (messages : List ChatMessage) (la : List (Except ExcInfo ChatResponseData))
    (ma mb : List (Except ExcInfo MCPResponse))
    (h1 : llmCfg.endpoint = "" ∨ llmCfg.apiKey = "")
    (h2 : mcpCfg.endpoint = "" ∨ mcpCfg.apiKey = "") :
    inspectConversation llmCfg messages la = (Except.ok (Decision.allow []), 0) ∧
    mcpInspectRequest mcpCfg ma = (Except.ok (Decision.allow []), 0) ∧
    mcpInspectResponse mcpCfg mb = (Except.ok (Decision.allow []), 0) := by
  refine ⟨?_, ?_, ?_⟩
  · rw [inspectConversation, if_pos h1]
  · rw [mcpInspectRequest, if_pos h2]
  · rw [mcpInspectResponse, if_pos h2]

/-- C10 witness: the theorem at a concrete unconfigured pair of inspectors
whose environments would have failed every request fail-closed. -/
theorem unconfigured_inspectors_allow_witness :
    inspectConversation ⟨"", "key", 3, false⟩ [⟨"user", "Hi"⟩]
        [Except.error ⟨"ConnectError", "refused"⟩] = (Except.ok (Decision.allow []), 0) ∧
    mcpInspectRequest ⟨"https://mcp.example", "", 3, false⟩
        [Except.error ⟨"ConnectError", "refused"⟩] = (Except.ok (Decision.allow []), 0) ∧
    mcpInspectResponse ⟨"https://mcp.example", "", 3, false⟩
        [Except.error ⟨"ConnectError", "refused"⟩] = (Except.ok (Decision.allow []), 0) :=
  unconfigured_inspectors_allow ⟨"", "key", 3, false⟩ ⟨"https://mcp.example", "", 3, false⟩
    [⟨"user", "Hi"⟩] [Except.error ⟨"ConnectError", "refused"⟩]
    [Except.error ⟨"ConnectError", "refused"⟩] [Except.error ⟨"ConnectError", "refused"⟩]
    (Or.inl rfl) (Or.inr rfl)

/-- Counting helper: how the two block counters step across a cons. -/
theorem counts_cons (b : ConverseOutBlock) (rest : List ConverseOutBlock) :
    countText (b :: rest) + countToolUse (b :: rest) =
      (countText rest + countToolUse rest) +
        (match b with
         | .text _ => 1
         | .toolUse _ _ _ => 1
         | .other => 0) := by
  cases b <;> simp [countText, countToolUse, List.countP_cons] <;> omega

/-- The per-block event loop emits three events per text or toolUse block
and none for other blocks. -/
theorem eventsForBlocks_length (bs : List ConverseOutBlock) :
    ∀ idx : Nat, (eventsForBlocks idx bs).length = 3 * (countText bs + countToolUse bs) := by
  induction bs with
  | nil => intro idx; simp [eventsForBlocks, countText, countToolUse]
  | cons b rest ih =>
    intro idx
    have hc := counts_cons b rest
    cases b <;>
      simp only [eventsForBlocks, eventsForBlock, List.length_append,
        List.length_cons, List.length_nil, ih (idx + 1), hc] <;>
      omega

/-- The per-block event loop emits, for each text or toolUse block in order,
a contentBlockStart, a contentBlockDelta and a contentBlockStop. -/
theorem eventsForBlocks_kinds (bs : List ConverseOutBlock) :
    ∀ idx : Nat, (eventsForBlocks idx bs).map BedrockStreamEvent.kind =
      (List.replicate (countText bs + countToolUse bs)
        [StreamEventKind.contentBlockStart, StreamEventKind.contentBlockDelta,
         StreamEventKind.contentBlockStop]).flatten := by
  induction bs with
  | nil => intro idx; simp [eventsForBlocks, countText, countToolUse]
  | cons b rest ih =>
    intro idx
    have hc := counts_cons b rest
    cases b with
    | text s =>
      rw [hc]
      simp only [List.replicate_succ, List.flatten_cons]
      simp [eventsForBlocks, eventsForBlock, BedrockStreamEvent.kind, ih (idx + 1)]
    | toolUse tid name input =>
      rw [hc]
      simp only [List.replicate_succ, List.flatten_cons]
      simp [eventsForBlocks, eventsForBlock, BedrockStreamEvent.kind, ih (idx + 1)]
    | other =>
      rw [hc]
      simp [eventsForBlocks, eventsForBlock, ih (idx + 1)]

/-- C5: the fake stream synthesized from a non-streaming Converse response
with T text blocks and U toolUse blocks (the Bedrock ContentBlock union makes
these disjoint) consists of exactly 1 + 3*(T+U) + 1 + 1 events, in the order:
one messageStart, then per qualifying block a contentBlockStart, a
contentBlockDelta and a contentBlockStop, then one messageStop, then one
metadata event. -/
theorem bedrock_fake_stream_shape (r : ConverseResponse) :
    (generateEvents r).length =
      1 + 3 * (countText (converseContent r) + countToolUse (converseContent r)) + 1 + 1 ∧
    (generateEvents r).map BedrockStreamEvent.kind =
      [StreamEventKind.messageStart] ++
        (List.replicate (countText (converseContent r) + countToolUse (converseContent r))
          [StreamEventKind.contentBlockStart, StreamEventKind.contentBlockDelta,
           StreamEventKind.contentBlockStop]).flatten ++
        [StreamEventKind.messageStop, StreamEventKind.metadata] := by
  constructor
  · simp [generateEvents, eventsForBlocks_length (converseContent r) 0]
    omega
  · simp [generateEvents, BedrockStreamEvent.kind,
      eventsForBlocks_kinds (converseContent r) 0]

/-- C7 counterexample: a Converse message consisting of a single toolResult
block whose result content carries no text entry flattens to the empty
string, and _parse_converse_messages drops it — contradicting "never drops
such a message". -/
theorem converse_empty_toolresult_dropped :
    ((ConverseReqBlock.toolResult []).isToolResult = true) ∧
    parseConverseMessages ⟨none,
      [⟨some "user", ConverseMsgContent.blocks [ConverseReqBlock.toolResult []]⟩]⟩ = [] := by
  decide

/-- Every toolResultMarker begins with the literal "[Tool result: ". -/
theorem toolResultMarker_form (s : String) :
    ∃ q, toolResultMarker s = "[Tool result: " ++ q := by
  rw [toolResultMarker]
  split
  · exact ⟨s.take 100 ++ "...]", by rw [String.append_assoc]⟩
  · exact ⟨s ++ "]", by rw [String.append_assoc]⟩

/-- The text entries of one block's toolResult content (empty for any other
block kind). -/
def toolResultTextsOfBlock : ConverseReqBlock → List String
  | .toolResult content =>
    content.filterMap fun rc =>
      match rc with
      | .trText s => some s
      | .trOther => none
  | _ => []

/-- The tool-result text entries a block list contributes, in order. -/
def toolResultTexts (bs : List ConverseReqBlock) : List String :=
  (bs.map toolResultTextsOfBlock).flatten

/-- A toolResult block's flattened parts are the markers of its text entries. -/
theorem reqBlockParts_toolResult (content : List ToolResultContent) :
    reqBlockParts (ConverseReqBlock.toolResult content) =
      (toolResultTextsOfBlock (ConverseReqBlock.toolResult content)).map toolResultMarker := by
  rw [reqBlockParts, toolResultTextsOfBlock, List.map_filterMap]
  congr 1
  funext rc
  cases rc <;> rfl

/-- In a block list of toolResult blocks only, the flattened parts are
exactly the markers of the collected text entries, in order. -/
theorem flatten_parts_of_toolResult (bs : List ConverseReqBlock)
    (hall : ∀ b ∈ bs, b.isToolResult = true) :
    (bs.map reqBlockParts).flatten = (toolResultTexts bs).map toolResultMarker := by
  induction bs with
  | nil => rfl
  | cons b rest ih =>
    have hrest : ∀ x ∈ rest, x.isToolResult = true :=
      fun x hx => hall x (List.mem_cons_of_mem _ hx)
    cases b with
    | text s =>
      exact absurd (hall _ (List.mem_cons_self _ _)) (by simp [ConverseReqBlock.isToolResult])
    | toolUse name =>
      exact absurd (hall _ (List.mem_cons_self _ _)) (by simp [ConverseReqBlock.isToolResult])
    | other =>
      exact absurd (hall _ (List.mem_cons_self _ _)) (by simp [ConverseReqBlock.isToolResult])
    | toolResult content =>
      rw [toolResultTexts, List.map_cons, List.map_cons, List.flatten_cons,
        List.flatten_cons, List.map_append, reqBlockParts_toolResult content]
      rw [toolResultTexts] at ih
      rw [ih hrest]

/-- Joining a non-empty list of strings that all begin with "[Tool result: "
yields a string beginning with "[Tool result: ". -/
theorem joinSpace_toolresult_head (ps : List String) (hne : ps ≠ [])
    (hall : ∀ p ∈ ps, ∃ q, p = "[Tool result: " ++ q) :
    ∃ rest, joinSpace ps = "[Tool result: " ++ rest := by
  cases ps with
  | nil => exact absurd rfl hne
  | cons p tl =>
    obtain ⟨q, hq⟩ := hall p (List.mem_cons_self p tl)
    cases tl with
    | nil => exact ⟨q, by simpa [joinSpace] using hq⟩
    | cons t tl2 =>
      refine ⟨q ++ (" " ++ joinSpace (t :: tl2)), ?_⟩
      have hstep : joinSpace (p :: t :: tl2) = p ++ " " ++ joinSpace (t :: tl2) := rfl
      rw [hstep, hq, String.append_assoc, String.append_assoc]

/-- C7 amended: for every Converse request message whose content blocks are
all toolResult blocks, normalization emits a canonical message exactly when
the blocks contribute at least one text entry.  With no text entries the
message is dropped — never emitted with empty content; otherwise exactly one
message is emitted, keeping the role, whose content is the space-joined list
of "[Tool result: ...]" markers of the text entries in order, each truncated
to its first 100 characters followed by "..." when longer, and that content
is non-empty and begins with "[Tool result: ". -/
theorem converse_toolresult_messages (role : Option String) (bs : List ConverseReqBlock)
    (hall : ∀ b ∈ bs, b.isToolResult = true) :
    (toolResultTexts bs = [] →
      parseConverseMessages ⟨none, [⟨role, ConverseMsgContent.blocks bs⟩]⟩ = []) ∧
    (toolResultTexts bs ≠ [] →
      parseConverseMessages ⟨none, [⟨role, ConverseMsgContent.blocks bs⟩]⟩ =
        [⟨role.getD "user",
          joinSpace ((toolResultTexts bs).map fun s =>
            if s.length > 100 then "[Tool result: " ++ s.take 100 ++ "...]"
            else "[Tool result: " ++ s ++ "]")⟩] ∧
      joinSpace ((toolResultTexts bs).map fun s =>
        if s.length > 100 then "[Tool result: " ++ s.take 100 ++ "...]"
        else "[Tool result: " ++ s ++ "]") ≠ "" ∧
      (∃ rest, joinSpace ((toolResultTexts bs).map fun s =>
        if s.length > 100 then "[Tool result: " ++ s.take 100 ++ "...]"
        else "[Tool result: " ++ s ++ "]") = "[Tool result: " ++ rest)) := by
  have hfun : (fun s : String =>
      if s.length > 100 then "[Tool result: " ++ s.take 100 ++ "...]"
      else "[Tool result: " ++ s ++ "]") = toolResultMarker := rfl
  rw [hfun]
  have hflat : (bs.map reqBlockParts).flatten = (toolResultTexts bs).map toolResultMarker :=
    flatten_parts_of_toolResult bs hall
  constructor
  · intro hempty
    have hf0 : (bs.map reqBlockParts).flatten = [] := by
      rw [hflat, hempty]
      rfl
    simp [parseConverseMessages, flattenMsgContent, hf0, joinSpace]
  · intro hne
    have hmne : (toolResultTexts bs).map toolResultMarker ≠ [] := by
      simpa using hne
    obtain ⟨rest, hrest⟩ := joinSpace_toolresult_head _ hmne (fun p hp => by
      obtain ⟨s, _, rfl⟩ := List.mem_map.mp hp
      exact toolResultMarker_form s)
    have hTne : joinSpace ((toolResultTexts bs).map toolResultMarker) ≠ "" := by
      intro h0
      have hlen := congrArg String.length (h0 ▸ hrest)
      rw [String.length_append] at hlen
      have h14 : ("[Tool result: " : String).length = 14 := by decide
      have h0len : ("" : String).length = 0 := by decide
      omega
    refine ⟨?_, hTne, ⟨rest, hrest⟩⟩
    simp [parseConverseMessages, flattenMsgContent, hflat, hTne]

/-- C7 witness: the amended theorem's two halves at concrete inputs — a
message holding one toolResult block with one text entry is emitted with its
marker content, and the hypothesis of the emit half is discharged on it. -/
theorem converse_toolresult_messages_witness :
    toolResultTexts [ConverseReqBlock.toolResult [ToolResultContent.trText "file contents"]]
      ≠ [] ∧
    (parseConverseMessages ⟨none, [⟨some "user", ConverseMsgContent.blocks
        [ConverseReqBlock.toolResult [ToolResultContent.trText "file contents"]]⟩]⟩ =
      [⟨(some "user").getD "user",
        joinSpace ((toolResultTexts
            [ConverseReqBlock.toolResult [ToolResultContent.trText "file contents"]]).map
          fun s =>
            if s.length > 100 then "[Tool result: " ++ s.take 100 ++ "...]"
            else "[Tool result: " ++ s ++ "]")⟩] ∧
    joinSpace ((toolResultTexts
        [ConverseReqBlock.toolResult [ToolResultContent.trText "file contents"]]).map
      fun s =>
        if s.length > 100 then "[Tool result: " ++ s.take 100 ++ "...]"
        else "[Tool result: " ++ s ++ "]") ≠ "" ∧
    (∃ rest, joinSpace ((toolResultTexts
        [ConverseReqBlock.toolResult [ToolResultContent.trText "file contents"]]).map
      fun s =>
        if s.length > 100 then "[Tool result: " ++ s.take 100 ++ "...]"
        else "[Tool result: " ++ s ++ "]") = "[Tool result: " ++ rest)) :=
  ⟨by decide,
   (converse_toolresult_messages (some "user")
     [ConverseReqBlock.toolResult [ToolResultContent.trText "file contents"]]
     (by decide)).2 (by decide)⟩

/-- C6: validation as staged can never succeed and does not raise only
ValidationErrors.  Every request dict either fails the config or http_req
checks with a ValidationError, or — as soon as http_req carries a non-empty
body and a method — reaches http_inspect.py line 482, whose bare
VALID_HTTP_METHODS name is undefined in that module and raises NameError;
evaluated here at the well-formed input of the module's own
test_validate_http_inspection_request_valid, which expects success. -/
theorem http_validation_never_succeeds :
    (∀ d : HttpInspectRequestDict, validateInspectionRequest d ≠ Except.ok ()) ∧
    validateInspectionRequest ⟨some ⟨some "GET", some "dGVzdCBib2R5"⟩, none, none⟩ =
      Except.error (PyError.nameError "name 'VALID_HTTP_METHODS' is not defined") := by
  constructor
  · have hparts : ∀ d : HttpInspectRequestDict,
        validateInspectionRequest.validateHttpParts d ≠ Except.ok () := by
      intro d
      obtain ⟨hreq, hres, cfg⟩ := d
      cases hreq with
      | none =>
        intro h
        exact Except.noConfusion h
      | some req =>
        by_cases hb : req.body.getD "" = ""
        · simp [validateInspectionRequest.validateHttpParts, hb]
        · by_cases hm : req.method.getD "" = ""
          · simp [validateInspectionRequest.validateHttpParts, hb, hm]
          · simp [validateInspectionRequest.validateHttpParts, hb, hm]
    intro d
    obtain ⟨hreq, hres, cfg⟩ := d
    rcases cfg with _ | ⟨_ | ⟨_ | ⟨r, rs⟩⟩⟩
    · exact hparts ⟨hreq, hres, none⟩
    · intro h
      exact Except.noConfusion h
    · intro h
      exact Except.noConfusion h
    · exact hparts ⟨hreq, hres, some ⟨some (r :: rs)⟩⟩
  · decide

/-- Decoding a base64 character recovers its six-bit value. -/
theorem b64Index_b64Char_fin : ∀ n : Fin 64, b64Index (b64Char n.val) = n.val := by
  decide

/-- No base64 alphabet character is the padding character. -/
theorem b64Char_ne_pad_fin : ∀ n : Fin 64, b64Char n.val ≠ '=' := by
  decide

/-- Decoding a base64 character recovers its six-bit value (Nat version). -/
theorem b64Index_b64Char (n : Nat) (h : n < 64) : b64Index (b64Char n) = n :=
  b64Index_b64Char_fin ⟨n, h⟩

/-- No base64 alphabet character is the padding character (Nat version). -/
theorem b64Char_ne_pad (n : Nat) (h : n < 64) : b64Char n ≠ '=' :=
  b64Char_ne_pad_fin ⟨n, h⟩

/-- Decoding inverts encoding on byte lists. -/
theorem b64_decode_encode (B : List Nat) (h : ∀ b ∈ B, b < 256) :
    b64DecodeChars (b64EncodeChunks B) = B := by
  induction B using b64EncodeChunks.induct with
  | case1 => rfl
  | case2 a =>
    have ha : a < 256 := h a (by simp)
    rw [b64EncodeChunks, b64DecodeChars, if_pos rfl,
      b64Index_b64Char (a / 4) (by omega), b64Index_b64Char (a % 4 * 16) (by omega)]
    simp only [List.cons.injEq, and_true]
    omega
  | case3 a b =>
    have ha : a < 256 := h a (by simp)
    have hb : b < 256 := h b (by simp)
    rw [b64EncodeChunks, b64DecodeChars, if_neg (b64Char_ne_pad (b % 16 * 4) (by omega)),
      if_pos rfl, b64Index_b64Char (a / 4) (by omega),
      b64Index_b64Char (a % 4 * 16 + b / 16) (by omega),
      b64Index_b64Char (b % 16 * 4) (by omega)]
    simp only [List.cons.injEq, and_true]
    omega
  | case4 a b c rest ih =>
    have ha : a < 256 := h a (by simp)
    have hb : b < 256 := h b (by simp)
    have hc : c < 256 := h c (by simp)
    have hrest : ∀ x ∈ rest, x < 256 := fun x hx => h x (by simp [hx])
    rw [b64EncodeChunks, b64DecodeChars,
      if_neg (b64Char_ne_pad (b % 16 * 4 + c / 64) (by omega)),
      if_neg (b64Char_ne_pad (c % 64) (by omega)),
      b64Index_b64Char (a / 4) (by omega),
      b64Index_b64Char (a % 4 * 16 + b / 16) (by omega),
      b64Index_b64Char (b % 16 * 4 + c / 64) (by omega),
      b64Index_b64Char (c % 64) (by omega), ih hrest]
    simp only [List.cons.injEq, and_true]
    omega

/-- C9: decoding with from_base64_bytes the value to_base64_bytes produced
from a byte string recovers exactly those bytes, and decoding the value
produced from a text string yields the string's UTF-8 encoding. -/
theorem base64_roundtrip :
    (∀ B : List Nat, (∀ b ∈ B, b < 256) → from_base64_bytes (to_base64_bytes B) = B) ∧
    (∀ s : String, from_base64_bytes (to_base64_bytes_of_str s) = utf8Bytes s) := by
  refine ⟨fun B h => b64_decode_encode B h, fun s => b64_decode_encode (utf8Bytes s) ?_⟩
  intro b hb
  obtain ⟨x, _, rfl⟩ := List.mem_map.mp hb
  exact UInt8.toNat_lt_size x

/-- C9 witness: the round trip evaluated at a concrete byte string and at a
concrete text string. -/
theorem base64_roundtrip_witness :
    from_base64_bytes (to_base64_bytes [72, 255, 0, 10]) = [72, 255, 0, 10] ∧
    from_base64_bytes (to_base64_bytes_of_str "hi") = utf8Bytes "hi" :=
  ⟨base64_roundtrip.1 [72, 255, 0, 10] (by decide), base64_roundtrip.2 "hi"⟩

end AIDefense
